import Mathlib

/-!
Verification of the "hammer" bin mover (`src/hammer.py`).

The program is a cooperative (asyncio) pipeline:
* `binfinder` scans the source roots once, enqueuing every `*.bin` file of
  size at least `FILE_SIZE`, then hands off to `binwatcher`;
* `binwatcher` enqueues the path for every CLOSE_WRITE event whose name ends
  in `.bin`;
* one `hammer` worker per destination dequeues items, performs a mount /
  free-space health check, optionally acquires a global lock
  (`ONE_AT_A_TIME`) and a per-source-directory lock (`ONE_PER_DRIVE`),
  issues a probe rsync and then the real rsync, and classifies the exit
  status (0 success, 10 socket I/O, 11/23 file I/O, otherwise unclassified).

The embedding below follows the source line by line.  One iteration of the
`hammer` `while True:` loop is rendered as a pure function from the
environment it observes (filesystem facts, subprocess exit codes, possible
exception points) to the trace of observable events it performs, plus
whether the worker keeps running or stops (the Python `break`).
-/

namespace Hammer

/-- `FILE_SIZE = 4 * 1024**4` (src/hammer.py line 33). -/
def FILE_SIZE : Nat := 4 * 1024 ^ 4

/-- `SLEEP_FOR = 60 * 3` (line 53), the short backoff in seconds. -/
def SLEEP_FOR : Nat := 60 * 3

/-- `SLEEP_FOR_LONG = 60 * 20` (line 54), the long backoff in seconds. -/
def SLEEP_FOR_LONG : Nat := 60 * 20

/-- The two optional concurrency policies (`ONE_AT_A_TIME`, `ONE_PER_DRIVE`,
lines 46 and 50).  They are module-level configuration booleans; we pass
them as parameters so theorems can quantify over the configuration. -/
structure Config where
  oneAtATime : Bool
  onePerDrive : Bool
deriving DecidableEq, Repr

/-- The `.bin`-suffix test shared by the `*.bin` glob pattern of
`binfinder` (line 77) and `event.name.endswith(".bin")` of `binwatcher`
(line 98).  Python compares the character sequences, so we state it on the
string's character list. -/
def endsWithBin (s : String) : Bool := ".bin".data.isSuffixOf s.data

/-- A file as seen by `binfinder`: the path returned by
`Path(path).glob("**/*.bin")` matching and the size returned by
`os.path.getsize` (lines 77-78). -/
structure SrcFile where
  path : String
  size : Nat
deriving DecidableEq, Repr

/-- `binfinder` (lines 75-80): for each source root in order, enumerate the
files whose name matches the `*.bin` glob pattern, and enqueue those whose
size is at least `FILE_SIZE`.  A root is modelled as the list of its files
in filesystem traversal order; the result is the queue contents produced by
the scan, in enqueue order. -/
def binfinder (roots : List (List SrcFile)) : List SrcFile :=
  (roots.map (fun files =>
    (files.filter (fun f => endsWithBin f.path)).filter
      (fun f => FILE_SIZE ≤ f.size))).flatten

/-- An inotify CLOSE_WRITE event as consumed by `binwatcher` (lines 96-100):
the watched root (`event.alias`) and the file name (`event.name`). -/
structure WatchEvent where
  rootAlias : String
  name : String
deriving DecidableEq, Repr

/-- One turn of the `binwatcher` event loop (lines 96-100): if the event
name ends in `.bin`, enqueue `Path(event.alias) / event.name`; otherwise
enqueue nothing.  No size check is performed. -/
def binwatcherStep (ev : WatchEvent) : Option String :=
  if endsWithBin ev.name then some (ev.rootAlias ++ "/" ++ ev.name)
  else none

/-- Observable events of one iteration of the `hammer` worker loop, in
program order. -/
inductive Event where
  /-- `bin = await bin_queue.get()` (line 107). -/
  | dequeue (bin : String)
  /-- `await bin_queue.put(bin)` (lines 116, 124, 147, 168, 173, 179). -/
  | put (bin : String)
  /-- `await asyncio.sleep(n)` (lines 117, 169, 178). -/
  | sleep (n : Nat)
  /-- `await LOCK.acquire()` (line 130). -/
  | acquireGlobal
  /-- `await SRC_LOCKS[bin.parent].acquire()` (line 134). -/
  | acquireDrive (parent : String)
  /-- `SRC_LOCKS[bin.parent].release()` (line 159). -/
  | releaseDrive (parent : String)
  /-- `LOCK.release()` (line 161). -/
  | releaseGlobal
  /-- The probe rsync of `/etc/hostname` completing with this code
  (lines 140-145). -/
  | probe (rc : Nat)
  /-- The real rsync of the bin completing with this code (lines 151-155). -/
  | realTransfer (bin : String) (rc : Nat)
  /-- `print(f"🏁 {cmd} ({finish - start})")` (line 164): success logged
  with the duration computed from the recorded timestamps. -/
  | logSuccess (bin : String) (duration : Nat)
  /-- `except Exception as e: print(f"! {e}")` (lines 188-189). -/
  | exnCaught
deriving DecidableEq, Repr

/-- Whether the worker's `while True:` loop continues after this iteration
(`running`) or has been exited with `break` (`stopped`). -/
inductive WorkerOutcome where
  | running
  | stopped
deriving DecidableEq, Repr

/-- Where, if anywhere, an exception is raised inside the inner
`try:` body (lines 136-156).  `duringProbe` models a raise while running
the probe subprocess, `duringReal` a raise while running the real
transfer (only reachable when the probe returned 0). -/
inductive Exn where
  | noExn
  | duringProbe
  | duringReal
deriving DecidableEq, Repr

/-- Everything one iteration of the `hammer` loop observes from the outside
world: the dequeued bin and its parent directory, the destination health
facts, the two subprocess exit codes, the timestamps taken around the real
transfer, and the exception behaviour of the attempt body. -/
structure IterEnv where
  bin : String
  parent : String
  destExists : Bool
  isMount : Bool
  binSize : Nat
  destFree : Nat
  probeRc : Nat
  realRc : Nat
  startTime : Nat
  finishTime : Nat
  exn : Exn
deriving DecidableEq, Repr

/-- Lock acquisitions, in source order: global first (line 129-130), then
per-drive (line 133-134). -/
def acquires (cfg : Config) (parent : String) : List Event :=
  (if cfg.oneAtATime then [Event.acquireGlobal] else []) ++
    (if cfg.onePerDrive then [Event.acquireDrive parent] else [])

/-- The `finally:` block (lines 157-161): per-drive released first, then
global. -/
def releases (cfg : Config) (parent : String) : List Event :=
  (if cfg.onePerDrive then [Event.releaseDrive parent] else []) ++
    (if cfg.oneAtATime then [Event.releaseGlobal] else [])

/-- The attempt body: lock acquisition (lines 129-134), the `try` block with
probe and real transfer (lines 136-156), the `finally` releases
(lines 157-161), and the exit-status classification (lines 163-181).
Produces the event trace after the health check and the loop outcome. -/
def attemptBody (cfg : Config) (e : IterEnv) : List Event × WorkerOutcome :=
  let acq := acquires cfg e.parent
  let rel := releases cfg e.parent
  match e.exn with
  | Exn.duringProbe =>
      -- raise inside the try body before the probe completes: the finally
      -- releases run, the outer `except Exception` logs, the loop continues.
      (acq ++ rel ++ [Event.exnCaught], WorkerOutcome.running)
  | Exn.duringReal =>
      if e.probeRc ≠ 0 then
        -- the probe failed, so the real transfer (and its exception point)
        -- is never reached: put the bin back and break (lines 145-148);
        -- the break runs the finally releases.
        (acq ++ [Event.probe e.probeRc, Event.put e.bin] ++ rel,
          WorkerOutcome.stopped)
      else
        (acq ++ [Event.probe e.probeRc] ++ rel ++ [Event.exnCaught],
          WorkerOutcome.running)
  | Exn.noExn =>
      if e.probeRc ≠ 0 then
        (acq ++ [Event.probe e.probeRc, Event.put e.bin] ++ rel,
          WorkerOutcome.stopped)
      else
        let pre := acq ++ [Event.probe e.probeRc,
          Event.realTransfer e.bin e.realRc] ++ rel
        if e.realRc = 0 then
          (pre ++ [Event.logSuccess e.bin (e.finishTime - e.startTime)],
            WorkerOutcome.running)
        else if e.realRc = 10 then
          (pre ++ [Event.put e.bin, Event.sleep SLEEP_FOR_LONG],
            WorkerOutcome.running)
        else if e.realRc = 11 ∨ e.realRc = 23 then
          (pre ++ [Event.put e.bin], WorkerOutcome.stopped)
        else
          (pre ++ [Event.sleep SLEEP_FOR, Event.put e.bin],
            WorkerOutcome.stopped)

/-- One iteration of the `hammer` `while True:` loop (lines 105-189):
dequeue, then the local-destination health check (lines 111-126), then the
attempt body.  When the destination path does not exist the health check is
skipped entirely (line 112). -/
def hammerIter (cfg : Config) (e : IterEnv) : List Event × WorkerOutcome :=
  if e.destExists then
    if e.isMount = false then
      ([Event.dequeue e.bin, Event.put e.bin, Event.sleep SLEEP_FOR],
        WorkerOutcome.running)
    else if e.destFree < e.binSize then
      ([Event.dequeue e.bin, Event.put e.bin], WorkerOutcome.stopped)
    else
      let r := attemptBody cfg e
      (Event.dequeue e.bin :: r.1, r.2)
  else
    let r := attemptBody cfg e
    (Event.dequeue e.bin :: r.1, r.2)

/-- The worker loop run against a list of iteration environments: each
iteration consumes one environment; a `stopped` outcome (`break`) ends the
loop, leaving the remaining environments untouched. -/
def hammerLoop (cfg : Config) : List IterEnv → List Event
  | [] => []
  | e :: rest =>
      let r := hammerIter cfg e
      r.1 ++ (match r.2 with
        | WorkerOutcome.running => hammerLoop cfg rest
        | WorkerOutcome.stopped => [])

/-- Event classifiers used to count occurrences in a trace. -/
def isPut : Event → Bool
  | Event.put _ => true
  | _ => false

def isDequeue : Event → Bool
  | Event.dequeue _ => true
  | _ => false

def isAcquireGlobal : Event → Bool
  | Event.acquireGlobal => true
  | _ => false

def isReleaseGlobal : Event → Bool
  | Event.releaseGlobal => true
  | _ => false

def isAcquireDrive : Event → Bool
  | Event.acquireDrive _ => true
  | _ => false

def isReleaseDrive : Event → Bool
  | Event.releaseDrive _ => true
  | _ => false

def isInvoke : Event → Bool
  | Event.probe _ => true
  | Event.realTransfer _ _ => true
  | _ => false

def isSleep : Event → Bool
  | Event.sleep _ => true
  | _ => false

def isRealTransfer : Event → Bool
  | Event.realTransfer _ _ => true
  | _ => false

/-- Checks along a trace that every Transfer Invoker call (probe or real
rsync) happens while the global lock is held: the first argument counts the
`acquireGlobal` events not yet matched by a `releaseGlobal`. -/
def transfersUnderGlobal : Nat → List Event → Bool
  | _, [] => true
  | d, Event.acquireGlobal :: r => transfersUnderGlobal (d + 1) r
  | d, Event.releaseGlobal :: r => transfersUnderGlobal (d - 1) r
  | d, Event.probe _ :: r => decide (0 < d) && transfersUnderGlobal d r
  | d, Event.realTransfer _ _ :: r => decide (0 < d) && transfersUnderGlobal d r
  | d, _ :: r => transfersUnderGlobal d r

/-!
Cooperative-schedule model for the `ONE_AT_A_TIME` policy.

All tasks are multiplexed on one asyncio event loop; a worker reaches
`LOCK.acquire()` (line 130) before issuing any subprocess, runs both the
probe and the real transfer while holding `LOCK`, and releases it in the
`finally` block (line 161) before doing anything else.  We model each
worker's position relative to the global lock as a phase, and the whole
system as the phases of all workers plus the holder of `LOCK`.
-/

/-- Position of one `hammer` worker relative to the global lock (when
`ONE_AT_A_TIME` is on): `idle` = anywhere outside lines 130-161 (dequeue,
health check, sleeps, classification); `waiting` = suspended in
`LOCK.acquire()` (line 130); `invoking` = inside the `try` body running the
probe or real rsync subprocess (lines 136-156). -/
inductive Phase where
  | idle
  | waiting
  | invoking
deriving DecidableEq, Repr

/-- State of the whole cooperative schedule: the phase of each worker
(indexed by position in the list, one worker per destination) and the
current holder of the global `LOCK` (line 71), `none` when unlocked. -/
structure Sys where
  phases : List Phase
  lockHolder : Option Nat
deriving DecidableEq, Repr

/-- Initial state: every worker idle (at the top of its loop), `LOCK`
unlocked. -/
def initSys (n : Nat) : Sys :=
  { phases := List.replicate n Phase.idle, lockHolder := none }

/-- One cooperative step of the system, parameterised by the
`ONE_AT_A_TIME` flag.  When the flag is on, a worker enters the invoking
region only by acquiring the free global lock, and releases it on leaving;
when it is off, line 130 is skipped and the worker enters unconditionally. -/
inductive SysStep (oat : Bool) : Sys → Sys → Prop where
  /-- An idle worker dequeues an item, passes the health check and arrives
  at line 129. -/
  | reachLock (s : Sys) (i : Nat)
      (h : s.phases[i]? = some Phase.idle) :
      SysStep oat s { phases := s.phases.set i Phase.waiting,
                      lockHolder := s.lockHolder }
  /-- With `ONE_AT_A_TIME`, `LOCK.acquire()` (line 130) completes only when
  no task holds the lock; the worker then owns it and proceeds into the
  `try` body. -/
  | acquire (s : Sys) (i : Nat) (hoat : oat = true)
      (h : s.phases[i]? = some Phase.waiting)
      (hfree : s.lockHolder = none) :
      SysStep oat s { phases := s.phases.set i Phase.invoking,
                      lockHolder := some i }
  /-- Without `ONE_AT_A_TIME`, line 130 is not executed and the worker
  enters the `try` body directly. -/
  | enterUnlocked (s : Sys) (i : Nat) (hoat : oat = false)
      (h : s.phases[i]? = some Phase.waiting) :
      SysStep oat s { phases := s.phases.set i Phase.invoking,
                      lockHolder := s.lockHolder }
  /-- The attempt body concludes (any outcome); the `finally` block
  (lines 157-161) releases `LOCK` when `ONE_AT_A_TIME` is on. -/
  | finish (s : Sys) (i : Nat)
      (h : s.phases[i]? = some Phase.invoking) :
      SysStep oat s { phases := s.phases.set i Phase.idle,
                      lockHolder := if oat then none else s.lockHolder }

/-- States reachable from the initial state of `n` workers under the
cooperative schedule. -/
inductive Reachable (oat : Bool) (n : Nat) : Sys → Prop where
  | init : Reachable oat n (initSys n)
  | step (s s' : Sys) : Reachable oat n s → SysStep oat s s' →
      Reachable oat n s'

/-- The lock-discipline invariant: every worker inside the `try` body holds
the global lock. -/
def LockInv (s : Sys) : Prop :=
  ∀ i, s.phases[i]? = some Phase.invoking → s.lockHolder = some i

/-! ## Theorems -/

/-- Membership in the Discovery queue, characterised: a file is enqueued by
the scan iff it lies under one of the roots, has the `.bin` suffix, and its
size is at least `FILE_SIZE`. -/
theorem mem_binfinder_iff (roots : List (List SrcFile)) (f : SrcFile) :
    f ∈ binfinder roots ↔
      (∃ files ∈ roots, f ∈ files) ∧ endsWithBin f.path = true ∧
        FILE_SIZE ≤ f.size := by
  simp only [binfinder, List.mem_flatten, List.mem_map]
  constructor
  · rintro ⟨l, ⟨files, hfiles, rfl⟩, hmem⟩
    obtain ⟨hf, hsz⟩ := List.mem_filter.mp hmem
    obtain ⟨hf', hsuf'⟩ := List.mem_filter.mp hf
    exact ⟨⟨files, hfiles, hf'⟩, hsuf', by simpa using hsz⟩
  · rintro ⟨⟨files, hfiles, hf⟩, hsuf, hsz⟩
    exact ⟨_, ⟨files, hfiles, rfl⟩,
      List.mem_filter.mpr ⟨List.mem_filter.mpr ⟨hf, hsuf⟩, by simpa using hsz⟩⟩

/-- **C3**: Candidate Discovery enqueues exactly those files under the
source roots whose name has the `.bin` suffix and whose size is at least
the configured minimum `FILE_SIZE = 4 * 1024 ^ 4`; in particular no file
with size strictly below the minimum is ever enqueued by Discovery. -/
theorem binfinder_enqueues_iff (roots : List (List SrcFile)) (f : SrcFile) :
    (f ∈ binfinder roots ↔
      (∃ files ∈ roots, f ∈ files) ∧ endsWithBin f.path = true ∧
        FILE_SIZE ≤ f.size) ∧
    (f.size < FILE_SIZE → f ∉ binfinder roots) :=
  ⟨mem_binfinder_iff roots f, fun hlt hmem =>
    absurd ((mem_binfinder_iff roots f).mp hmem).2.2 (by omega)⟩

/-- Witness for C3: with one root holding `plot-1.bin` (5 TiB) and
`plot-2.bin` (1 GiB), only the former is discovered. -/
theorem binfinder_enqueues_iff_witness :
    (⟨"/mnt/a/plot-1.bin", 5 * 1024 ^ 4⟩ : SrcFile) ∈
      binfinder [[⟨"/mnt/a/plot-1.bin", 5 * 1024 ^ 4⟩,
        ⟨"/mnt/a/plot-2.bin", 1024 ^ 3⟩]] ∧
    (⟨"/mnt/a/plot-2.bin", 1024 ^ 3⟩ : SrcFile) ∉
      binfinder [[⟨"/mnt/a/plot-1.bin", 5 * 1024 ^ 4⟩,
        ⟨"/mnt/a/plot-2.bin", 1024 ^ 3⟩]] := by
  constructor
  · exact (binfinder_enqueues_iff _ _).1.mpr
      ⟨⟨[⟨"/mnt/a/plot-1.bin", 5 * 1024 ^ 4⟩, ⟨"/mnt/a/plot-2.bin", 1024 ^ 3⟩],
        by simp, by simp⟩, by decide, by decide⟩
  · exact (binfinder_enqueues_iff _ _).2 (by decide)

/-- **C10**: for every close-write event whose filename ends in `.bin`, the
Live Watcher enqueues the corresponding path unconditionally, with no size
check — so, unlike Discovery, a file smaller than `FILE_SIZE` at that path
would still be enqueued by the watcher while Discovery rejects it. -/
theorem binwatcher_enqueues_without_size_check (ev : WatchEvent) (sz : Nat)
    (h : endsWithBin ev.name = true) :
    binwatcherStep ev = some (ev.rootAlias ++ "/" ++ ev.name) ∧
    (sz < FILE_SIZE →
      ({ path := ev.rootAlias ++ "/" ++ ev.name, size := sz } : SrcFile) ∉
        binfinder
          [[{ path := ev.rootAlias ++ "/" ++ ev.name, size := sz }]]) := by
  refine ⟨by simp [binwatcherStep, h], fun hlt hmem => ?_⟩
  have := (mem_binfinder_iff
    [[{ path := ev.rootAlias ++ "/" ++ ev.name, size := sz }]] _).mp hmem
  have hsz : FILE_SIZE ≤ sz := this.2.2
  omega

/-- Witness for C10: a `.bin` close-write event is enqueued by the watcher
(instantiated at size 0, far below `FILE_SIZE`). -/
theorem binwatcher_enqueues_without_size_check_witness :
    binwatcherStep { rootAlias := "/mnt/src", name := "tiny.bin" } =
      some ("/mnt/src" ++ "/" ++ "tiny.bin") :=
  (binwatcher_enqueues_without_size_check
    { rootAlias := "/mnt/src", name := "tiny.bin" } 0 (by decide)).1

/-- **C6**: when the destination path exists, is a mount point, and its
free space is strictly below the item's size, the worker re-enqueues the
item and stops, acquiring no lock and invoking no transfer (probe or real)
for that item; the loop dequeues nothing further. -/
theorem hammer_full_destination_stops (cfg : Config) (e : IterEnv)
    (hex : e.destExists = true) (hm : e.isMount = true)
    (hfull : e.destFree < e.binSize) :
    hammerIter cfg e =
      ([Event.dequeue e.bin, Event.put e.bin], WorkerOutcome.stopped) ∧
    (hammerIter cfg e).1.countP isPut = 1 ∧
    (hammerIter cfg e).1.countP isAcquireGlobal = 0 ∧
    (hammerIter cfg e).1.countP isAcquireDrive = 0 ∧
    (hammerIter cfg e).1.countP isInvoke = 0 ∧
    ∀ rest, hammerLoop cfg (e :: rest) = [Event.dequeue e.bin,
      Event.put e.bin] := by
  have h : hammerIter cfg e =
      ([Event.dequeue e.bin, Event.put e.bin], WorkerOutcome.stopped) := by
    unfold hammerIter
    simp [hex, hm, hfull]
  refine ⟨h, ?_, ?_, ?_, ?_, fun rest => ?_⟩ <;>
    simp [hammerLoop, h, List.countP_cons, isPut, isAcquireGlobal,
      isAcquireDrive, isInvoke]

/-- Witness for C6: a 2-byte bin against a mounted destination with 1 free
byte is put back and the worker stops at once. -/
theorem hammer_full_destination_stops_witness :
    hammerIter ⟨false, false⟩
      { bin := "/mnt/a/p.bin", parent := "/mnt/a", destExists := true,
        isMount := true, binSize := 2, destFree := 1, probeRc := 0,
        realRc := 0, startTime := 0, finishTime := 0, exn := Exn.noExn } =
    ([Event.dequeue "/mnt/a/p.bin", Event.put "/mnt/a/p.bin"],
      WorkerOutcome.stopped) :=
  (hammer_full_destination_stops ⟨false, false⟩ _ rfl rfl (by decide)).1

/-- **C7**: when the destination path exists but is not a mount point, the
worker re-enqueues the item, sleeps the short backoff, and remains running;
a worker facing any number of consecutive such iterations processes them
all and never stops for this reason. -/
theorem hammer_not_mounted_retries (cfg : Config) (e : IterEnv)
    (hex : e.destExists = true) (hm : e.isMount = false) :
    hammerIter cfg e =
      ([Event.dequeue e.bin, Event.put e.bin, Event.sleep SLEEP_FOR],
        WorkerOutcome.running) ∧
    ∀ es : List IterEnv,
      (∀ x ∈ es, x.destExists = true ∧ x.isMount = false) →
      hammerLoop cfg es =
        (es.map (fun x => [Event.dequeue x.bin, Event.put x.bin,
          Event.sleep SLEEP_FOR])).flatten ∧
      (hammerLoop cfg es).countP isDequeue = es.length := by
  have hiter : ∀ x : IterEnv, x.destExists = true → x.isMount = false →
      hammerIter cfg x =
        ([Event.dequeue x.bin, Event.put x.bin, Event.sleep SLEEP_FOR],
          WorkerOutcome.running) := by
    intro x hx1 hx2
    unfold hammerIter
    simp [hx1, hx2]
  refine ⟨hiter e hex hm, fun es hes => ?_⟩
  induction es with
  | nil => simp [hammerLoop]
  | cons a as ih =>
      obtain ⟨ha1, ha2⟩ := hes a (List.mem_cons_self a as)
      obtain ⟨ih1, ih2⟩ := ih (fun x hx => hes x (List.mem_cons_of_mem a hx))
      constructor
      · simp only [hammerLoop, hiter a ha1 ha2, ih1, List.map_cons,
          List.flatten_cons]
      · simp only [hammerLoop, hiter a ha1 ha2]
        simp [List.countP_append, List.countP_cons, isDequeue, ih2]

/-- When the health check passes (the destination either does not exist, or
is a mounted path with enough free space), the iteration is the dequeue
followed by the attempt body. -/
theorem hammerIter_attempt (cfg : Config) (e : IterEnv)
    (hh : e.destExists = true → e.isMount = true ∧ e.binSize ≤ e.destFree) :
    hammerIter cfg e =
      (Event.dequeue e.bin :: (attemptBody cfg e).1,
        (attemptBody cfg e).2) := by
  unfold hammerIter
  cases hde : e.destExists with
  | false => simp
  | true =>
      obtain ⟨hm, hsp⟩ := hh hde
      simp [hm, Nat.not_lt.mpr hsp]

/-- Occurrence count of any classifier over the lock-acquisition prefix. -/
theorem countP_acquires (q : Event → Bool) (cfg : Config) (p : String) :
    (acquires cfg p).countP q =
      (if cfg.oneAtATime then (if q Event.acquireGlobal then 1 else 0)
        else 0) +
      (if cfg.onePerDrive then (if q (Event.acquireDrive p) then 1 else 0)
        else 0) := by
  unfold acquires
  rcases cfg with ⟨oat, opd⟩
  cases oat <;> cases opd <;>
    simp [List.countP_cons, List.countP_append, Nat.add_comm]

/-- Occurrence count of any classifier over the `finally` release block. -/
theorem countP_releases (q : Event → Bool) (cfg : Config) (p : String) :
    (releases cfg p).countP q =
      (if cfg.onePerDrive then (if q (Event.releaseDrive p) then 1 else 0)
        else 0) +
      (if cfg.oneAtATime then (if q Event.releaseGlobal then 1 else 0)
        else 0) := by
  unfold releases
  rcases cfg with ⟨oat, opd⟩
  cases oat <;> cases opd <;>
    simp [List.countP_cons, List.countP_append, Nat.add_comm]

/-- Witness for C7: two consecutive not-mounted iterations are both
processed and both items are re-enqueued. -/
theorem hammer_not_mounted_retries_witness :
    (hammerLoop ⟨false, false⟩
      [{ bin := "/a/p.bin", parent := "/a", destExists := true,
         isMount := false, binSize := 1, destFree := 0, probeRc := 0,
         realRc := 0, startTime := 0, finishTime := 0, exn := Exn.noExn },
       { bin := "/a/q.bin", parent := "/a", destExists := true,
         isMount := false, binSize := 1, destFree := 0, probeRc := 0,
         realRc := 0, startTime := 0, finishTime := 0,
         exn := Exn.noExn }]).countP isDequeue = 2 :=
  ((hammer_not_mounted_retries ⟨false, false⟩
      { bin := "/a/p.bin", parent := "/a", destExists := true,
        isMount := false, binSize := 1, destFree := 0, probeRc := 0,
        realRc := 0, startTime := 0, finishTime := 0, exn := Exn.noExn }
      rfl rfl).2 _ (by decide)).2

/-- **C4**: when the real transfer exits with a file-I/O status (11 or 23),
the item is re-enqueued exactly once and the worker stops, dequeuing no
further items: with any remaining work after this iteration, the loop
performs exactly one dequeue in total from this point on. -/
theorem hammer_file_io_error_stops (cfg : Config) (e : IterEnv)
    (hh : e.destExists = true → e.isMount = true ∧ e.binSize ≤ e.destFree)
    (hx : e.exn = Exn.noExn) (hp : e.probeRc = 0)
    (hrc : e.realRc = 11 ∨ e.realRc = 23) :
    (hammerIter cfg e).1.countP isPut = 1 ∧
    (hammerIter cfg e).2 = WorkerOutcome.stopped ∧
    ∀ rest, (hammerLoop cfg (e :: rest)).countP isDequeue = 1 := by
  have hbody : (attemptBody cfg e).1.countP isPut = 1 ∧
      (attemptBody cfg e).1.countP isDequeue = 0 ∧
      (attemptBody cfg e).2 = WorkerOutcome.stopped := by
    unfold attemptBody
    rcases hrc with h | h <;>
      simp [hx, hp, h, List.countP_append, List.countP_cons,
        countP_acquires, countP_releases, isPut, isDequeue]
  have hi := hammerIter_attempt cfg e hh
  refine ⟨?_, ?_, fun rest => ?_⟩
  · rw [hi]
    simp [List.countP_cons, isPut, hbody.1]
  · rw [hi]
    exact hbody.2.2
  · simp [hammerLoop, hi, hbody.2.2, List.countP_cons, isDequeue,
      hbody.2.1]

/-- Witness for C4: a transfer exiting 23 on a remote destination requeues
once and the loop dequeues exactly once even with more work pending. -/
theorem hammer_file_io_error_stops_witness :
    (hammerLoop ⟨false, false⟩
      [{ bin := "/a/p.bin", parent := "/a", destExists := false,
         isMount := false, binSize := 1, destFree := 0, probeRc := 0,
         realRc := 23, startTime := 0, finishTime := 0,
         exn := Exn.noExn },
       { bin := "/a/q.bin", parent := "/a", destExists := false,
         isMount := false, binSize := 1, destFree := 0, probeRc := 0,
         realRc := 0, startTime := 0, finishTime := 0,
         exn := Exn.noExn }]).countP isDequeue = 1 :=
  (hammer_file_io_error_stops ⟨false, false⟩
    { bin := "/a/p.bin", parent := "/a", destExists := false,
      isMount := false, binSize := 1, destFree := 0, probeRc := 0,
      realRc := 23, startTime := 0, finishTime := 0, exn := Exn.noExn }
    (by simp) rfl rfl (Or.inr rfl)).2.2 _

/-- **C5**: when the real transfer exits 0 the item is never re-enqueued,
the worker remains running, and success is logged with the duration
`finish - start` computed from the timestamps recorded around the real
transfer. -/
theorem hammer_success_consumes (cfg : Config) (e : IterEnv)
    (hh : e.destExists = true → e.isMount = true ∧ e.binSize ≤ e.destFree)
    (hx : e.exn = Exn.noExn) (hp : e.probeRc = 0) (hrc : e.realRc = 0) :
    (hammerIter cfg e).1.countP isPut = 0 ∧
    (hammerIter cfg e).2 = WorkerOutcome.running ∧
    Event.logSuccess e.bin (e.finishTime - e.startTime) ∈
      (hammerIter cfg e).1 := by
  have hbody : (attemptBody cfg e).1.countP isPut = 0 ∧
      (attemptBody cfg e).2 = WorkerOutcome.running ∧
      Event.logSuccess e.bin (e.finishTime - e.startTime) ∈
        (attemptBody cfg e).1 := by
    unfold attemptBody
    simp [hx, hp, hrc, List.countP_append, List.countP_cons,
      countP_acquires, countP_releases, isPut]
  have hi := hammerIter_attempt cfg e hh
  refine ⟨?_, ?_, ?_⟩
  · rw [hi]
    simp [List.countP_cons, isPut, hbody.1]
  · rw [hi]
    exact hbody.2.1
  · rw [hi]
    exact List.mem_cons_of_mem _ hbody.2.2

/-- Witness for C5: a successful transfer logs duration `9 - 2 = 7` and
puts nothing back. -/
theorem hammer_success_consumes_witness :
    Event.logSuccess "/a/p.bin" 7 ∈
      (hammerIter ⟨true, true⟩
        { bin := "/a/p.bin", parent := "/a", destExists := false,
          isMount := false, binSize := 1, destFree := 0, probeRc := 0,
          realRc := 0, startTime := 2, finishTime := 9,
          exn := Exn.noExn }).1 :=
  (hammer_success_consumes ⟨true, true⟩
    { bin := "/a/p.bin", parent := "/a", destExists := false,
      isMount := false, binSize := 1, destFree := 0, probeRc := 0,
      realRc := 0, startTime := 2, finishTime := 9, exn := Exn.noExn }
    (by simp) rfl rfl rfl).2.2

/-- **C8**: when the probe exits with a non-zero status, the real item is
put back exactly once, every acquired lock is matched by a release, the
worker stops without invoking the real transfer, and the loop dequeues
nothing further. -/
theorem hammer_probe_failure_stops (cfg : Config) (e : IterEnv)
    (hh : e.destExists = true → e.isMount = true ∧ e.binSize ≤ e.destFree)
    (hx : e.exn ≠ Exn.duringProbe) (hp : e.probeRc ≠ 0) :
    (hammerIter cfg e).1.countP isPut = 1 ∧
    (hammerIter cfg e).1.countP isRealTransfer = 0 ∧
    (hammerIter cfg e).1.countP isAcquireGlobal =
      (hammerIter cfg e).1.countP isReleaseGlobal ∧
    (hammerIter cfg e).1.countP isAcquireDrive =
      (hammerIter cfg e).1.countP isReleaseDrive ∧
    (hammerIter cfg e).2 = WorkerOutcome.stopped ∧
    ∀ rest, (hammerLoop cfg (e :: rest)).countP isDequeue = 1 := by
  have hbody : attemptBody cfg e =
      (acquires cfg e.parent ++ [Event.probe e.probeRc, Event.put e.bin]
        ++ releases cfg e.parent, WorkerOutcome.stopped) := by
    unfold attemptBody
    cases hex : e.exn with
    | duringProbe => exact absurd hex hx
    | duringReal => simp [hp]
    | noExn => simp [hp]
  have hi := hammerIter_attempt cfg e hh
  rw [hi, hbody]
  refine ⟨?_, ?_, ?_, ?_, rfl, fun rest => ?_⟩ <;>
    simp [hammerLoop, hi, hbody, List.countP_append, List.countP_cons,
      countP_acquires, countP_releases, isPut, isRealTransfer,
      isAcquireGlobal, isReleaseGlobal, isAcquireDrive, isReleaseDrive,
      isDequeue]

/-- Witness for C8: a probe exiting 12 with both locks configured requeues
the item, stops the worker, and the loop dequeues exactly once. -/
theorem hammer_probe_failure_stops_witness :
    (hammerLoop ⟨true, true⟩
      [{ bin := "/a/p.bin", parent := "/a", destExists := false,
         isMount := false, binSize := 1, destFree := 0, probeRc := 12,
         realRc := 0, startTime := 0, finishTime := 0,
         exn := Exn.noExn }]).countP isDequeue = 1 :=
  (hammer_probe_failure_stops ⟨true, true⟩
    { bin := "/a/p.bin", parent := "/a", destExists := false,
      isMount := false, binSize := 1, destFree := 0, probeRc := 12,
      realRc := 0, startTime := 0, finishTime := 0, exn := Exn.noExn }
    (by simp) (by simp) (by simp)).2.2.2.2.2 _

/-- A concrete iteration exercising the unclassified-failure branch: remote
destination (path does not exist), probe succeeds, real transfer exits 1
(not 0, 10, 11 or 23). -/
def unclassifiedEnv : IterEnv :=
  { bin := "/mnt/a/plot-1.bin", parent := "/mnt/a", destExists := false,
    isMount := false, binSize := 0, destFree := 0, probeRc := 0,
    realRc := 1, startTime := 0, finishTime := 0, exn := Exn.noExn }

/-- **C9 counterexample**: on an unclassified non-zero exit status the code
sleeps the short backoff *before* re-enqueuing the item (lines 176-181 run
`sleep(SLEEP_FOR)` and then `put(bin)`), so the claim that the item is
re-enqueued before the backoff sleep begins is false: in the concrete trace
the sleep strictly precedes the put. -/
theorem hammer_unclassified_order_counterexample :
    (hammerIter ⟨false, false⟩ unclassifiedEnv).1 =
      [Event.dequeue "/mnt/a/plot-1.bin", Event.probe 0,
        Event.realTransfer "/mnt/a/plot-1.bin" 1, Event.sleep SLEEP_FOR,
        Event.put "/mnt/a/plot-1.bin"] ∧
    (hammerIter ⟨false, false⟩ unclassifiedEnv).1.findIdx isSleep <
      (hammerIter ⟨false, false⟩ unclassifiedEnv).1.findIdx isPut ∧
    ¬ (hammerIter ⟨false, false⟩ unclassifiedEnv).1.findIdx isPut <
        (hammerIter ⟨false, false⟩ unclassifiedEnv).1.findIdx isSleep := by
  decide

/-- **C9 (amended)**: on a non-zero exit status other than 10, 11 and 23,
the worker sleeps the short backoff interval, then puts the item back, and
then stops — in that order (the sleep completes before the item is
re-enqueued): the trace ends with `sleep SLEEP_FOR` immediately followed by
the sole `put`, the outcome is `stopped`, and the loop dequeues nothing
further. -/
theorem hammer_unclassified_sleeps_then_requeues (cfg : Config)
    (e : IterEnv)
    (hh : e.destExists = true → e.isMount = true ∧ e.binSize ≤ e.destFree)
    (hx : e.exn = Exn.noExn) (hp : e.probeRc = 0)
    (h0 : e.realRc ≠ 0) (h10 : e.realRc ≠ 10) (h11 : e.realRc ≠ 11)
    (h23 : e.realRc ≠ 23) :
    (∃ pre, (hammerIter cfg e).1 =
      pre ++ [Event.sleep SLEEP_FOR, Event.put e.bin]) ∧
    (hammerIter cfg e).1.countP isPut = 1 ∧
    (hammerIter cfg e).2 = WorkerOutcome.stopped ∧
    ∀ rest, (hammerLoop cfg (e :: rest)).countP isDequeue = 1 := by
  have hbody : attemptBody cfg e =
      ((acquires cfg e.parent ++ [Event.probe e.probeRc,
          Event.realTransfer e.bin e.realRc] ++ releases cfg e.parent) ++
        [Event.sleep SLEEP_FOR, Event.put e.bin],
        WorkerOutcome.stopped) := by
    unfold attemptBody
    simp [hx, hp, h0, h10, h11, h23]
  have hi := hammerIter_attempt cfg e hh
  refine ⟨?_, ?_, ?_, fun rest => ?_⟩
  · refine ⟨Event.dequeue e.bin :: (acquires cfg e.parent ++
      [Event.probe e.probeRc, Event.realTransfer e.bin e.realRc] ++
      releases cfg e.parent), ?_⟩
    rw [hi, hbody]
    simp
  · rw [hi, hbody]
    simp [List.countP_append, List.countP_cons, countP_acquires,
      countP_releases, isPut]
  · rw [hi, hbody]
  · simp [hammerLoop, hi, hbody, List.countP_append, List.countP_cons,
      countP_acquires, countP_releases, isDequeue]

/-- Witness for the amended C9: the concrete unclassified-failure trace
ends in sleep-then-put, and the loop stops after one dequeue. -/
theorem hammer_unclassified_sleeps_then_requeues_witness :
    (hammerLoop ⟨false, false⟩ [unclassifiedEnv]).countP isDequeue = 1 :=
  (hammer_unclassified_sleeps_then_requeues ⟨false, false⟩
    unclassifiedEnv (by simp [unclassifiedEnv]) rfl rfl (by decide)
    (by decide) (by decide) (by decide)).2.2.2 _

theorem mem_acquires_global_iff (cfg : Config) (p : String) :
    Event.acquireGlobal ∈ acquires cfg p ↔ cfg.oneAtATime = true := by
  unfold acquires
  rcases cfg with ⟨oat, opd⟩
  cases oat <;> cases opd <;> simp

theorem mem_releases_global_iff (cfg : Config) (p : String) :
    Event.releaseGlobal ∈ releases cfg p ↔ cfg.oneAtATime = true := by
  unfold releases
  rcases cfg with ⟨oat, opd⟩
  cases oat <;> cases opd <;> simp

theorem mem_acquires_drive_iff (cfg : Config) (p q : String) :
    Event.acquireDrive q ∈ acquires cfg p ↔
      cfg.onePerDrive = true ∧ q = p := by
  unfold acquires
  rcases cfg with ⟨oat, opd⟩
  cases oat <;> cases opd <;> simp

theorem mem_releases_drive_iff (cfg : Config) (p q : String) :
    Event.releaseDrive q ∈ releases cfg p ↔
      cfg.onePerDrive = true ∧ q = p := by
  unfold releases
  rcases cfg with ⟨oat, opd⟩
  cases oat <;> cases opd <;> simp

theorem acquireGlobal_not_mem_releases (cfg : Config) (p : String) :
    Event.acquireGlobal ∉ releases cfg p := by
  unfold releases
  rcases cfg with ⟨oat, opd⟩
  cases oat <;> cases opd <;> simp

theorem acquireDrive_not_mem_releases (cfg : Config) (p q : String) :
    Event.acquireDrive q ∉ releases cfg p := by
  unfold releases
  rcases cfg with ⟨oat, opd⟩
  cases oat <;> cases opd <;> simp

set_option maxHeartbeats 800000 in
/-- Lock balance of the attempt body, every branch: acquisitions match
releases in count, and an acquired lock is always released. -/
theorem attemptBody_locks (cfg : Config) (e : IterEnv) :
    ((attemptBody cfg e).1.countP isAcquireGlobal =
      (attemptBody cfg e).1.countP isReleaseGlobal) ∧
    ((attemptBody cfg e).1.countP isAcquireDrive =
      (attemptBody cfg e).1.countP isReleaseDrive) ∧
    (Event.acquireGlobal ∈ (attemptBody cfg e).1 →
      Event.releaseGlobal ∈ (attemptBody cfg e).1) ∧
    (Event.acquireDrive e.parent ∈ (attemptBody cfg e).1 →
      Event.releaseDrive e.parent ∈ (attemptBody cfg e).1) := by
  unfold attemptBody
  cases e.exn <;> split_ifs <;>
    simp [List.countP_append, List.countP_cons, countP_acquires,
      countP_releases, isAcquireGlobal, isReleaseGlobal, isAcquireDrive,
      isReleaseDrive, List.mem_append, mem_acquires_global_iff,
      mem_releases_global_iff, mem_acquires_drive_iff,
      mem_releases_drive_iff, acquireGlobal_not_mem_releases,
      acquireDrive_not_mem_releases] <;>
    tauto

/-- **C2**: in every iteration, whatever the configuration and outcome
(health-check exits, probe failure, any real-transfer exit status, or an
exception inside the attempt body), the number of global-lock acquisitions
equals the number of global-lock releases, likewise for the per-drive
lock, and whenever a lock is acquired it is also released. -/
theorem hammer_locks_always_released (cfg : Config) (e : IterEnv) :
    (hammerIter cfg e).1.countP isAcquireGlobal =
      (hammerIter cfg e).1.countP isReleaseGlobal ∧
    (hammerIter cfg e).1.countP isAcquireDrive =
      (hammerIter cfg e).1.countP isReleaseDrive ∧
    (Event.acquireGlobal ∈ (hammerIter cfg e).1 →
      Event.releaseGlobal ∈ (hammerIter cfg e).1) ∧
    (Event.acquireDrive e.parent ∈ (hammerIter cfg e).1 →
      Event.releaseDrive e.parent ∈ (hammerIter cfg e).1) := by
  have hbody : hammerIter cfg e =
        (Event.dequeue e.bin :: (attemptBody cfg e).1,
          (attemptBody cfg e).2) →
      (hammerIter cfg e).1.countP isAcquireGlobal =
        (hammerIter cfg e).1.countP isReleaseGlobal ∧
      (hammerIter cfg e).1.countP isAcquireDrive =
        (hammerIter cfg e).1.countP isReleaseDrive ∧
      (Event.acquireGlobal ∈ (hammerIter cfg e).1 →
        Event.releaseGlobal ∈ (hammerIter cfg e).1) ∧
      (Event.acquireDrive e.parent ∈ (hammerIter cfg e).1 →
        Event.releaseDrive e.parent ∈ (hammerIter cfg e).1) := by
    intro hi
    have hb := attemptBody_locks cfg e
    rw [hi]
    refine ⟨?_, ?_, ?_, ?_⟩
    · simpa [List.countP_cons, isAcquireGlobal, isReleaseGlobal]
        using hb.1
    · simpa [List.countP_cons, isAcquireDrive, isReleaseDrive]
        using hb.2.1
    · intro hmem
      exact List.mem_cons_of_mem _ (hb.2.2.1 (by simpa using hmem))
    · intro hmem
      exact List.mem_cons_of_mem _ (hb.2.2.2 (by simpa using hmem))
  cases hde : e.destExists with
  | false =>
      exact hbody (hammerIter_attempt cfg e (fun h => by simp [hde] at h))
  | true =>
      cases hm : e.isMount with
      | false =>
          have h : hammerIter cfg e =
              ([Event.dequeue e.bin, Event.put e.bin,
                Event.sleep SLEEP_FOR], WorkerOutcome.running) := by
            unfold hammerIter
            simp [hde, hm]
          rw [h]
          simp [List.countP_cons, isAcquireGlobal, isReleaseGlobal,
            isAcquireDrive, isReleaseDrive]
      | true =>
          cases Nat.lt_or_ge e.destFree e.binSize with
          | inl hfull =>
              have h : hammerIter cfg e =
                  ([Event.dequeue e.bin, Event.put e.bin],
                    WorkerOutcome.stopped) := by
                unfold hammerIter
                simp [hde, hm, hfull]
              rw [h]
              simp [List.countP_cons, isAcquireGlobal, isReleaseGlobal,
                isAcquireDrive, isReleaseDrive]
          | inr hge =>
              exact hbody (hammerIter_attempt cfg e (fun _ => ⟨hm, hge⟩))

/-- Witness for C2: with both policies on and an exception during the real
transfer, the global lock acquired in the trace is also released there. -/
theorem hammer_locks_always_released_witness :
    Event.releaseGlobal ∈
      (hammerIter ⟨true, true⟩
        { bin := "/a/p.bin", parent := "/a", destExists := false,
          isMount := false, binSize := 1, destFree := 0, probeRc := 0,
          realRc := 0, startTime := 0, finishTime := 0,
          exn := Exn.duringReal }).1 :=
  (hammer_locks_always_released ⟨true, true⟩
    { bin := "/a/p.bin", parent := "/a", destExists := false,
      isMount := false, binSize := 1, destFree := 0, probeRc := 0,
      realRc := 0, startTime := 0, finishTime := 0,
      exn := Exn.duringReal }).2.2.1 (by decide)

/-- With `ONE_AT_A_TIME` on, every branch of the attempt body performs the
probe and the real transfer strictly between `LOCK.acquire()` and
`LOCK.release()`. -/
theorem attemptBody_under_lock (opd : Bool) (e : IterEnv) :
    transfersUnderGlobal 0 (attemptBody ⟨true, opd⟩ e).1 = true := by
  unfold attemptBody acquires releases
  cases e.exn <;> cases opd <;> split_ifs <;>
    simp_all [transfersUnderGlobal]

/-- With `ONE_AT_A_TIME` on, every iteration of the worker loop performs
its Transfer Invoker calls only while the global lock is held. -/
theorem hammerIter_transfers_under_lock (cfg : Config) (e : IterEnv)
    (hoat : cfg.oneAtATime = true) :
    transfersUnderGlobal 0 (hammerIter cfg e).1 = true := by
  obtain ⟨oat, opd⟩ := cfg
  subst hoat
  have hbody : hammerIter ⟨true, opd⟩ e =
        (Event.dequeue e.bin :: (attemptBody ⟨true, opd⟩ e).1,
          (attemptBody ⟨true, opd⟩ e).2) →
      transfersUnderGlobal 0 (hammerIter ⟨true, opd⟩ e).1 = true := by
    intro hi
    rw [hi]
    simpa [transfersUnderGlobal] using attemptBody_under_lock opd e
  cases hde : e.destExists with
  | false =>
      exact hbody
        (hammerIter_attempt ⟨true, opd⟩ e (fun h => by simp [hde] at h))
  | true =>
      cases hm : e.isMount with
      | false =>
          have h : hammerIter ⟨true, opd⟩ e =
              ([Event.dequeue e.bin, Event.put e.bin,
                Event.sleep SLEEP_FOR], WorkerOutcome.running) := by
            unfold hammerIter
            simp [hde, hm]
          rw [h]
          simp [transfersUnderGlobal]
      | true =>
          cases Nat.lt_or_ge e.destFree e.binSize with
          | inl hfull =>
              have h : hammerIter ⟨true, opd⟩ e =
                  ([Event.dequeue e.bin, Event.put e.bin],
                    WorkerOutcome.stopped) := by
                unfold hammerIter
                simp [hde, hm, hfull]
              rw [h]
              simp [transfersUnderGlobal]
          | inr hge =>
              exact hbody
                (hammerIter_attempt ⟨true, opd⟩ e (fun _ => ⟨hm, hge⟩))

/-- The lock-discipline invariant holds in every reachable state of the
cooperative schedule when `ONE_AT_A_TIME` is on. -/
theorem reachable_lockInv (n : Nat) (s : Sys)
    (hr : Reachable true n s) : LockInv s := by
  induction hr with
  | init =>
      intro i h
      simp [initSys, List.getElem?_replicate] at h
  | step s s' hprev hstep ih =>
      cases hstep with
      | reachLock i hph =>
          intro j hj
          rcases eq_or_ne i j with rfl | hne
          · rw [List.getElem?_set] at hj
            simp at hj
          · rw [List.getElem?_set_ne hne] at hj
            exact ih j hj
      | acquire i hoat hph hfree =>
          intro j hj
          rcases eq_or_ne i j with rfl | hne
          · rfl
          · rw [List.getElem?_set_ne hne] at hj
            exact absurd (ih j hj) (by simp [hfree])
      | enterUnlocked i hoat hph =>
          exact absurd hoat (by simp)
      | finish i hph =>
          intro j hj
          rcases eq_or_ne i j with rfl | hne
          · rw [List.getElem?_set] at hj
            simp at hj
          · rw [List.getElem?_set_ne hne] at hj
            have h1 := ih j hj
            have h2 := ih i hph
            rw [h2] at h1
            exact absurd (Option.some.inj h1) hne

/-- **C1**: with the `ONE_AT_A_TIME` policy enabled, in every reachable
state of the cooperative schedule a worker is inside the probe/real
transfer region only while holding the global lock, so at most one worker
executes a Transfer Invoker call at any point, across all destinations;
moreover every iteration trace performs its probe and real transfer only
at positive global-lock depth. -/
theorem one_at_a_time_mutual_exclusion (n : Nat) (s : Sys)
    (hr : Reachable true n s) :
    LockInv s ∧
    (∀ i j : Nat, s.phases[i]? = some Phase.invoking →
      s.phases[j]? = some Phase.invoking → i = j) ∧
    (∀ (cfg : Config) (e : IterEnv), cfg.oneAtATime = true →
      transfersUnderGlobal 0 (hammerIter cfg e).1 = true) := by
  have hinv : LockInv s := reachable_lockInv n s hr
  refine ⟨hinv, fun i j hi hj => ?_,
    fun cfg e h => hammerIter_transfers_under_lock cfg e h⟩
  have h1 := hinv i hi
  have h2 := hinv j hj
  rw [h1] at h2
  exact Option.some.inj h2

/-- Witness for C1: the state with worker 0 invoking while holding the
lock and worker 1 idle is reachable in three steps from two idle workers;
there the two-invokers conclusion forces the indices equal. -/
theorem one_at_a_time_mutual_exclusion_witness :
    (Sys.mk [Phase.invoking, Phase.idle] (some 0)).lockHolder = some 0 ∧
    transfersUnderGlobal 0
      (hammerIter ⟨true, true⟩ unclassifiedEnv).1 = true := by
  have h0 : Reachable true 2 (initSys 2) := Reachable.init
  have h1 : Reachable true 2
      (Sys.mk [Phase.waiting, Phase.idle] none) :=
    Reachable.step _ _ h0 (SysStep.reachLock (initSys 2) 0 rfl)
  have h2 : Reachable true 2
      (Sys.mk [Phase.invoking, Phase.idle] (some 0)) :=
    Reachable.step _ _ h1
      (SysStep.acquire (Sys.mk [Phase.waiting, Phase.idle] none) 0
        rfl rfl rfl)
  exact ⟨(one_at_a_time_mutual_exclusion 2 _ h2).1 0 rfl,
    (one_at_a_time_mutual_exclusion 2 _ h2).2.2 ⟨true, true⟩
      unclassifiedEnv rfl⟩

end Hammer
